import Mathlib

/-!
Verification development for the deep-learning-v2-pytorch tutorial notebooks.

The repository consists of two notebooks:

* `intro-to-pytorch/Part 3 - Training Neural Networks (Exercises).ipynb`:
  an `nn.Sequential` classifier `Linear(784,128) - ReLU - Linear(128,64) -
  ReLU - Linear(64,10) - LogSoftmax(dim=1)`, trained with `nn.NLLLoss` and
  `optim.SGD(lr=0.003)` in the loop `for e in range(epochs): for images,
  labels in trainloader: zero_grad; forward; loss; backward; step`.
* `unnamed/part_000` (the inference-and-validation notebook): a `Classifier`
  module with layers `784-256-128-64-10`, `F.relu` on the hidden layers and
  `F.log_softmax(..., dim=1)` on the output, a dropout variant with
  `nn.Dropout(p=0.2)` on the three hidden activations, and training loops
  with `optim.Adam` followed by a validation pass under `torch.no_grad()`
  (with `model.eval()` / `model.train()` in the dropout variant) that
  accumulates `nn.NLLLoss` values and top-1 accuracy.

The development has two layers:

* a real-valued model of the numeric semantics (linear layers, ReLU,
  log-softmax, NLL loss, dropout), idealizing the floating-point tensors as
  real numbers, and
* an executable rational/list model of the bookkeeping (tensor shapes and
  `view`, the SGD and Adam update rules, the event order of the training
  loop, the accuracy computation of the validation loop).
-/

/-- Training/evaluation mode of a module, toggled in the source by
`model.train()` and `model.eval()`. -/
inductive Mode where
  | train
  | eval
deriving DecidableEq

noncomputable section RealModel

/-- `nn.Linear` / `F.linear`: the affine map `y i = (∑ j, W i j * x j) + b i`. -/
def linear {m n : ℕ} (W : Fin m → Fin n → ℝ) (b : Fin m → ℝ) (x : Fin n → ℝ) :
    Fin m → ℝ :=
  fun i => (∑ j, W i j * x j) + b i

/-- `F.relu` applied elementwise: `max(x, 0)`. -/
def reluV {n : ℕ} (x : Fin n → ℝ) : Fin n → ℝ :=
  fun i => max (x i) 0

/-- The row-wise maximum subtracted by the numerically stable log-softmax. -/
def rowMax {n : ℕ} (v : Fin (n + 1) → ℝ) : ℝ :=
  Finset.univ.sup' Finset.univ_nonempty v

/-- `F.log_softmax(scores, dim=1)` / `nn.LogSoftmax(dim=1)` on one row of
scores, in the numerically stable form that subtracts the row maximum before
exponentiating:
`logSoftmax v i = (v i - max v) - log (∑ j, exp (v j - max v))`. -/
def logSoftmax {n : ℕ} (v : Fin (n + 1) → ℝ) : Fin (n + 1) → ℝ :=
  fun i => (v i - rowMax v) - Real.log (∑ j, Real.exp (v j - rowMax v))

/-- `nn.NLLLoss` contribution of a single example: the negated log-probability
assigned to the true label.  The batch loss reported by the source is the mean
of these per-example terms. -/
def nllLossRow {n : ℕ} (logp : Fin (n + 1) → ℝ) (label : Fin (n + 1)) : ℝ :=
  -(logp label)

/-- Parameters of the `Classifier` module of the validation notebook:
`fc1 = nn.Linear(784, 256)`, `fc2 = nn.Linear(256, 128)`,
`fc3 = nn.Linear(128, 64)`, `fc4 = nn.Linear(64, 10)`. -/
structure ClassifierParams where
  w1 : Fin 256 → Fin 784 → ℝ
  b1 : Fin 256 → ℝ
  w2 : Fin 128 → Fin 256 → ℝ
  b2 : Fin 128 → ℝ
  w3 : Fin 64 → Fin 128 → ℝ
  b3 : Fin 64 → ℝ
  w4 : Fin 10 → Fin 64 → ℝ
  b4 : Fin 10 → ℝ

/-- The pre-log-softmax scores of `Classifier.forward` on one flattened
example: `fc4(relu(fc3(relu(fc2(relu(fc1(x)))))))`. -/
def Classifier.scores (p : ClassifierParams) (x : Fin 784 → ℝ) : Fin 10 → ℝ :=
  linear p.w4 p.b4 (reluV (linear p.w3 p.b3 (reluV (linear p.w2 p.b2
    (reluV (linear p.w1 p.b1 x))))))

/-- `Classifier.forward` on one flattened example:
`F.log_softmax(fc4(relu(fc3(relu(fc2(relu(fc1(x))))))), dim=1)`. -/
def Classifier.forward (p : ClassifierParams) (x : Fin 784 → ℝ) : Fin 10 → ℝ :=
  logSoftmax (Classifier.scores p x)

/-- The all-zero parameter assignment (zero-initialized weights and biases). -/
def zeroClassifierParams : ClassifierParams :=
  ⟨fun _ _ => 0, fun _ => 0, fun _ _ => 0, fun _ => 0,
   fun _ _ => 0, fun _ => 0, fun _ _ => 0, fun _ => 0⟩

/-- Behavior of `nn.Dropout(p)` on one activation, given the Bernoulli drop
decision for that activation.  In training mode a dropped activation becomes
`0` and a surviving one is rescaled by `1/(1-p)`; in evaluation mode the layer
is the identity. -/
def dropoutElem (mode : Mode) (p : ℝ) (dropped : Bool) (x : ℝ) : ℝ :=
  match mode with
  | .eval => x
  | .train => if dropped then 0 else x * (1 - p)⁻¹

/-- `nn.Dropout(p)` on a vector of activations, given the vector of
independent Bernoulli drop decisions. -/
def dropoutVec {n : ℕ} (mode : Mode) (p : ℝ) (mask : Fin n → Bool)
    (x : Fin n → ℝ) : Fin n → ℝ :=
  fun i => dropoutElem mode p (mask i) (x i)

/-- Probability that the Bernoulli drop decision of `nn.Dropout(p)` takes a
given value: `p` for a drop, `1 - p` for a survival. -/
def bernProb (p : ℝ) (b : Bool) : ℝ :=
  if b then p else 1 - p

/-- The fixed drop probability of the source: `nn.Dropout(p = 0.2)`. -/
def dropP : ℝ := 1 / 5

/-- The three Bernoulli mask vectors drawn by one training-mode call of the
dropout `Classifier.forward` (one per hidden layer; the output layer has no
dropout module applied to it). -/
structure DropoutMasks where
  m1 : Fin 256 → Bool
  m2 : Fin 128 → Bool
  m3 : Fin 64 → Bool

/-- Pre-log-softmax scores of the dropout variant of `Classifier.forward`:
`fc4(drop(relu(fc3(drop(relu(fc2(drop(relu(fc1(x))))))))))` with
`drop = nn.Dropout(p=0.2)`.  No dropout is applied after `fc4`. -/
def Classifier.scoresDropout (mode : Mode) (p : ClassifierParams)
    (mk : DropoutMasks) (x : Fin 784 → ℝ) : Fin 10 → ℝ :=
  linear p.w4 p.b4 (dropoutVec mode dropP mk.m3 (reluV (linear p.w3 p.b3
    (dropoutVec mode dropP mk.m2 (reluV (linear p.w2 p.b2
      (dropoutVec mode dropP mk.m1 (reluV (linear p.w1 p.b1 x)))))))))

/-- The dropout variant of `Classifier.forward`: the dropout scores followed
by `F.log_softmax(..., dim=1)`. -/
def Classifier.forwardDropout (mode : Mode) (p : ClassifierParams)
    (mk : DropoutMasks) (x : Fin 784 → ℝ) : Fin 10 → ℝ :=
  logSoftmax (Classifier.scoresDropout mode p mk x)

/-- A generic two-layer feed-forward score map `W2(relu(W1 x + b1)) + b2`,
used for the zero-initialized two-layer scenario of the spec. -/
def twoLayer {d h k : ℕ} (W1 : Fin h → Fin d → ℝ) (b1 : Fin h → ℝ)
    (W2 : Fin k → Fin h → ℝ) (b2 : Fin k → ℝ) (x : Fin d → ℝ) : Fin k → ℝ :=
  linear W2 b2 (reluV (linear W1 b1 x))

end RealModel

section Definitions

/-- Mutable training state threaded through one training iteration: the
parameter tensors and their gradient buffers, flattened to rational lists
(one entry per scalar parameter). -/
structure SGDState where
  params : List ℚ
  grads : List ℚ

/-- `optimizer.zero_grad()`: every gradient buffer entry is overwritten
with `0`; parameters are untouched. -/
def zeroGradOp (s : SGDState) : SGDState :=
  ⟨s.params, s.grads.map (fun _ => 0)⟩

/-- `loss.backward()`: autograd accumulates the gradient of the batch loss
into the existing gradient buffers (it adds, it does not overwrite);
parameters are untouched.  The gradient values themselves are produced by
the framework, so they enter the model as the argument `g`. -/
def backwardOp (g : List ℚ) (s : SGDState) : SGDState :=
  ⟨s.params, List.zipWith (· + ·) s.grads g⟩

/-- `optimizer.step()` for plain `optim.SGD(lr)` (no momentum, no weight
decay): every parameter entry is replaced by `p - lr * g` using its own
gradient buffer entry. -/
def sgdStepOp (lr : ℚ) (s : SGDState) : SGDState :=
  ⟨List.zipWith (fun p g => p - lr * g) s.params s.grads, s.grads⟩

/-- The body of the inner training loop of the Part 3 notebook:
`optimizer.zero_grad(); output = model(images); loss = criterion(output,
labels); loss.backward(); optimizer.step()`.  The forward pass and the loss
value do not modify the state; their effect on the state is summarized by
the gradient `gradFn s.params` that `loss.backward()` accumulates. -/
def trainBatchStep (lr : ℚ) (gradFn : List ℚ → List ℚ) (s : SGDState) :
    SGDState :=
  sgdStepOp lr (backwardOp (gradFn s.params) (zeroGradOp s))

/-- The `optim.SGD` update rule on a single scalar parameter. -/
def sgdStep (lr p g : ℚ) : ℚ := p - lr * g

/-- The `optim.SGD` update applied to every parameter entry uniformly. -/
def sgdStepAll (lr : ℚ) (ps gs : List ℚ) : List ℚ :=
  List.zipWith (fun p g => p - lr * g) ps gs

/-- The first update applied by `optim.Adam` (defaults `beta1 = 0.9`,
`beta2 = 0.999`, `eps = 1e-8`) to a single scalar parameter, starting from
fresh optimizer state `m = v = 0`.  After one backward pass the
bias-corrected first moment is `m1 / (1 - beta1) = g` and the bias-corrected
second moment is `v1 / (1 - beta2) = g ^ 2`, whose square root is `|g|`, so
the first step is exactly `p - lr * g / (|g| + eps)`. -/
def adamFirstStep (lr eps p g : ℚ) : ℚ :=
  p - lr * (g / (|g| + eps))

/-- The observable operations performed by one run of the training loop,
tagged with the index of the batch they act on. -/
inductive Ev where
  | zeroGrad (b : ℕ)
  | forwardEv (b : ℕ)
  | lossEv (b : ℕ)
  | backwardEv (b : ℕ)
  | stepEv (b : ℕ)
  | evalForwardEv (b : ℕ)
  | evalAccumEv (b : ℕ)
deriving DecidableEq

/-- The operations of one training batch, in source order:
`optimizer.zero_grad()`, `model(images)`, `criterion(log_ps, labels)`,
`loss.backward()`, `optimizer.step()`. -/
def trainBatchEvents (b : ℕ) : List Ev :=
  [.zeroGrad b, .forwardEv b, .lossEv b, .backwardEv b, .stepEv b]

/-- The operations of one evaluation batch, in source order: the forward
pass `model(images)` and the loss/accuracy accumulation. -/
def evalBatchEvents (b : ℕ) : List Ev :=
  [.evalForwardEv b, .evalAccumEv b]

/-- The operations of one epoch: all `T` training batches (the inner `for`
loop over `trainloader`), followed by the `else:` clause iterating the `V`
evaluation batches of `testloader` under `torch.no_grad()`. -/
def epochEvents (T V : ℕ) : List Ev :=
  (List.range T).flatMap trainBatchEvents ++ (List.range V).flatMap evalBatchEvents

/-- The operations of the full training loop `for e in range(epochs)`. -/
def trainingLoopEvents (E T V : ℕ) : List Ev :=
  (List.range E).flatMap (fun _ => epochEvents T V)

/-- The validation loop of the source, run over the batches of
`testloader` under `torch.no_grad()`: starting from accumulators
`test_loss = 0` and `accuracy = 0`, each batch adds its loss and its batch
accuracy.  The loop body only reads the model parameters; the per-batch loss
and accuracy values are computed by `lossFn` and `accFn` from the current
parameters and the batch. -/
def evalLoop {β : Type} (lossFn accFn : List ℚ → β → ℚ) (s : SGDState)
    (bs : List β) : SGDState × ℚ × ℚ :=
  bs.foldl (fun acc b =>
    (acc.1, acc.2.1 + lossFn acc.1.params b, acc.2.2 + accFn acc.1.params b))
    (s, 0, 0)

/-- `ps.topk(1, dim=1)` on one row of class values: the index of the (first)
largest entry. -/
def argmaxIdx (xs : List ℚ) : ℕ :=
  (xs.enum.foldl (fun best iv => if best.2 < iv.2 then iv else best)
    (0, xs.headD 0)).1

/-- `torch.mean` of a list of scalars. -/
def meanQ (xs : List ℚ) : ℚ := xs.sum / xs.length

/-- `equality_tensor = top_class == labels.view(*top_class.shape)`: the
per-row comparison of the arg-max predicted class with the true label. -/
def equalityList (probs : List (List ℚ)) (labels : List ℕ) : List Bool :=
  List.zipWith (fun row l => argmaxIdx row == l) probs labels

/-- `torch.mean(equality_tensor.type(torch.FloatTensor))`: the equality
tensor cast to 0/1 values and averaged, giving the accuracy of one batch. -/
def batchAccuracy (probs : List (List ℚ)) (labels : List ℕ) : ℚ :=
  meanQ ((equalityList probs labels).map (fun e => if e then (1 : ℚ) else 0))

/-- `accuracy/len(testloader)`: the per-batch accuracies are summed by
`accuracy += ...` over the evaluation batches and then divided by the number
of batches. -/
def reportedAccuracy (batches : List (List (List ℚ) × List ℕ)) : ℚ :=
  ((batches.map (fun b => batchAccuracy b.1 b.2)).sum) / batches.length

/-- A tensor of the list model: a shape and the row-major flat data. -/
structure PTensor where
  shape : List ℕ
  data : List ℚ

/-- Parameters of the `Classifier` module in the list model: weight rows and
bias entries of `fc1` to `fc4`. -/
structure ParamsL where
  w1 : List (List ℚ)
  b1 : List ℚ
  w2 : List (List ℚ)
  b2 : List ℚ
  w3 : List (List ℚ)
  b3 : List ℚ
  w4 : List (List ℚ)
  b4 : List ℚ

/-- Well-formedness of the list-model parameters: the dimensions declared by
`nn.Linear(784, 256)`, `nn.Linear(256, 128)`, `nn.Linear(128, 64)` and
`nn.Linear(64, 10)`. -/
structure ParamsL.WF (p : ParamsL) : Prop where
  hw1 : p.w1.length = 256
  hr1 : ∀ r ∈ p.w1, r.length = 784
  hb1 : p.b1.length = 256
  hw2 : p.w2.length = 128
  hr2 : ∀ r ∈ p.w2, r.length = 256
  hb2 : p.b2.length = 128
  hw3 : p.w3.length = 64
  hr3 : ∀ r ∈ p.w3, r.length = 128
  hb3 : p.b3.length = 64
  hw4 : p.w4.length = 10
  hr4 : ∀ r ∈ p.w4, r.length = 64
  hb4 : p.b4.length = 10

/-- Dot product of a weight row with an input row. -/
def dotQ (a b : List ℚ) : ℚ := ((a.zip b).map (fun ab => ab.1 * ab.2)).sum

/-- `nn.Linear` in the list model. -/
def linearQ (W : List (List ℚ)) (b : List ℚ) (x : List ℚ) : List ℚ :=
  (W.zip b).map (fun rb => dotQ rb.1 x + rb.2)

/-- `F.relu` in the list model. -/
def reluQ (x : List ℚ) : List ℚ := x.map (fun a => max a 0)

/-- The score computation of `Classifier.forward` on one flattened row in the
list model (the final `F.log_softmax` is elementwise per row and preserves
the shape; its numeric content lives in the real-valued model). -/
def scoresRowQ (p : ParamsL) (x : List ℚ) : List ℚ :=
  linearQ p.w4 p.b4 (reluQ (linearQ p.w3 p.b3 (reluQ (linearQ p.w2 p.b2
    (reluQ (linearQ p.w1 p.b1 x))))))

/-- `x.view(x.shape[0], -1)`: the flat data regrouped into `batch` rows of
`per` entries each. -/
def rowsOf (batch per : ℕ) (data : List ℚ) : List (List ℚ) :=
  (List.range batch).map (fun i => (data.drop (i * per)).take per)

/-- `Classifier.forward` at the tensor level: flatten with
`x.view(x.shape[0], -1)`, then run each row through the layers.  The first
linear layer `fc1 = nn.Linear(784, 256)` accepts the input exactly when the
flattened per-example width is 784 and otherwise raises the matmul shape
error. -/
def forwardT (p : ParamsL) (t : PTensor) : Except String PTensor :=
  match t.shape with
  | [] => .error "IndexError: index 0 out of range"
  | batch :: rest =>
    if rest.prod = 784 then
      .ok ⟨[batch, 10], ((rowsOf batch 784 t.data).map (scoresRowQ p)).flatten⟩
    else
      .error "mat1 and mat2 shapes cannot be multiplied"

/-- The all-zero list-model parameter assignment, with the dimensions of
the four `nn.Linear` layers. -/
def zeroParamsL : ParamsL :=
  ⟨List.replicate 256 (List.replicate 784 0), List.replicate 256 0,
   List.replicate 128 (List.replicate 256 0), List.replicate 128 0,
   List.replicate 64 (List.replicate 128 0), List.replicate 64 0,
   List.replicate 10 (List.replicate 64 0), List.replicate 10 0⟩

end Definitions

section HelperLemmas

/-- The sum of exponentials of the shifted scores is positive. -/
lemma sum_exp_shift_pos {n : ℕ} (v : Fin (n + 1) → ℝ) :
    0 < ∑ j, Real.exp (v j - rowMax v) :=
  Finset.sum_pos (fun j _ => Real.exp_pos _) Finset.univ_nonempty

/-- Exponentials of log-softmax values sum to one. -/
lemma sum_exp_logSoftmax {n : ℕ} (v : Fin (n + 1) → ℝ) :
    ∑ i, Real.exp (logSoftmax v i) = 1 := by
  have hS := sum_exp_shift_pos v
  have hcalc : ∀ i : Fin (n + 1),
      Real.exp (logSoftmax v i) =
        Real.exp (v i - rowMax v) / (∑ j, Real.exp (v j - rowMax v)) := by
    intro i
    rw [logSoftmax, Real.exp_sub, Real.exp_log hS]
  calc ∑ i, Real.exp (logSoftmax v i)
      = ∑ i, Real.exp (v i - rowMax v) / (∑ j, Real.exp (v j - rowMax v)) := by
        exact Finset.sum_congr rfl (fun i _ => hcalc i)
    _ = (∑ i, Real.exp (v i - rowMax v)) / (∑ j, Real.exp (v j - rowMax v)) := by
        rw [Finset.sum_div]
    _ = 1 := div_self (ne_of_gt hS)

/-- The stable log-softmax (subtracting the row maximum) agrees with the
unshifted log-sum-exp normalization. -/
lemma logSoftmax_eq_unshifted {n : ℕ} (v : Fin (n + 1) → ℝ) (i : Fin (n + 1)) :
    logSoftmax v i = v i - Real.log (∑ j, Real.exp (v j)) := by
  have hshift : (∑ j, Real.exp (v j - rowMax v)) =
      Real.exp (-rowMax v) * ∑ j, Real.exp (v j) := by
    rw [Finset.mul_sum]
    exact Finset.sum_congr rfl (fun j _ => by rw [← Real.exp_add]; ring_nf)
  have hpos : 0 < ∑ j, Real.exp (v j) :=
    Finset.sum_pos (fun j _ => Real.exp_pos _) Finset.univ_nonempty
  rw [logSoftmax, hshift,
    Real.log_mul (Real.exp_ne_zero _) (ne_of_gt hpos), Real.log_exp]
  ring

/-- Log-softmax of a constant row is the constant `-log (n + 1)`. -/
lemma logSoftmax_const {n : ℕ} (c : ℝ) (i : Fin (n + 1)) :
    logSoftmax (fun _ : Fin (n + 1) => c) i = -Real.log (n + 1) := by
  rw [logSoftmax_eq_unshifted]
  have hcard : (Finset.univ : Finset (Fin (n + 1))).card = n + 1 := by
    simp
  rw [Finset.sum_const, hcard, nsmul_eq_mul,
    Real.log_mul (by positivity) (Real.exp_ne_zero _), Real.log_exp]
  push_cast
  ring

/-- An affine layer with zero weights and zero biases sends every input to
the zero vector. -/
lemma linear_zero {m n : ℕ} (x : Fin n → ℝ) :
    linear (fun (_ : Fin m) (_ : Fin n) => (0 : ℝ))
      (fun (_ : Fin m) => (0 : ℝ)) x = fun _ => 0 := by
  funext i
  simp [linear]

/-- ReLU of the zero vector is the zero vector. -/
lemma reluV_zero {n : ℕ} : reluV (fun _ : Fin n => (0 : ℝ)) = fun _ => 0 := by
  funext i
  simp [reluV]

/-- With zero-initialized weights and biases, the classifier scores (the
logits before log-softmax) are all zero, for every input. -/
lemma scores_zero (x : Fin 784 → ℝ) :
    Classifier.scores zeroClassifierParams x = fun _ => 0 := by
  funext i
  simp [Classifier.scores, zeroClassifierParams, linear, reluV]

/-- In evaluation mode the dropout layer is the identity on every vector. -/
lemma dropoutVec_eval {n : ℕ} (p : ℝ) (mask : Fin n → Bool) (x : Fin n → ℝ) :
    dropoutVec .eval p mask x = x := by
  funext i
  rfl

/-- In evaluation mode the dropout scores coincide with the scores of the
dropout-free classifier with the same parameters. -/
lemma scoresDropout_eval (p : ClassifierParams) (mk : DropoutMasks)
    (x : Fin 784 → ℝ) :
    Classifier.scoresDropout .eval p mk x = Classifier.scores p x := by
  rw [Classifier.scoresDropout, Classifier.scores]
  rw [dropoutVec_eval, dropoutVec_eval, dropoutVec_eval]

/-- In evaluation mode the dropout forward pass coincides with the
dropout-free forward pass with the same parameters. -/
lemma forwardDropout_eval (p : ClassifierParams) (mk : DropoutMasks)
    (x : Fin 784 → ℝ) :
    Classifier.forwardDropout .eval p mk x = Classifier.forward p x := by
  rw [Classifier.forwardDropout, Classifier.forward, scoresDropout_eval]

/-- A two-layer network with zero-initialized weights and zero biases
produces all-zero logits on every input. -/
lemma twoLayer_zero {d h k : ℕ} (x : Fin d → ℝ) :
    twoLayer (fun (_ : Fin h) (_ : Fin d) => (0 : ℝ)) (fun _ => 0)
      (fun (_ : Fin k) (_ : Fin h) => (0 : ℝ)) (fun _ => 0) x
      = fun _ : Fin k => 0 := by
  funext i
  simp [twoLayer, linear, reluV]

/-- Mapping to the constant zero function yields a `replicate` of zeros. -/
lemma map_zero_eq_replicate (l : List ℚ) :
    l.map (fun _ => (0 : ℚ)) = List.replicate l.length 0 := by
  induction l with
  | nil => rfl
  | cons a l ih => simp [List.replicate_succ, ih]

/-- Accumulating a gradient into freshly zeroed buffers of matching length
reproduces the gradient exactly. -/
lemma zipWith_add_replicate_zero (g : List ℚ) :
    List.zipWith (· + ·) (List.replicate g.length (0 : ℚ)) g = g := by
  induction g with
  | nil => rfl
  | cons a g ih => simp [List.replicate_succ, ih]

/-- Looking up an index in a `zipWith` of two lists. -/
lemma getElem?_zipWith_of {α β γ : Type} (f : α → β → γ) :
    ∀ (l1 : List α) (l2 : List β) (i : ℕ) (a : α) (b : β),
      l1[i]? = some a → l2[i]? = some b →
      (List.zipWith f l1 l2)[i]? = some (f a b) := by
  intro l1
  induction l1 with
  | nil => intro l2 i a b h1 _; simp at h1
  | cons x l1 ih =>
    intro l2 i a b h1 h2
    cases l2 with
    | nil => simp at h2
    | cons y l2 =>
      cases i with
      | zero =>
        simp only [List.getElem?_cons_zero, Option.some.injEq] at h1 h2
        simp [List.zipWith_cons_cons, h1, h2]
      | succ i =>
        simp only [List.getElem?_cons_succ] at h1 h2
        simpa [List.zipWith_cons_cons] using ih l2 i a b h1 h2

/-- Length of a bind over `range` with constant block length. -/
lemma length_range_bind {α : Type} (f : ℕ → List α) (c : ℕ)
    (hc : ∀ b, (f b).length = c) :
    ∀ n, ((List.range n).flatMap f).length = n * c := by
  intro n
  induction n with
  | zero => simp
  | succ n ih =>
    rw [List.range_succ, List.flatMap_append, List.length_append, ih]
    simp [hc n, Nat.succ_mul]

/-- Indexing into a bind over `range` with constant block length. -/
lemma getElem?_range_bind {α : Type} (f : ℕ → List α) (c : ℕ)
    (hc : ∀ b, (f b).length = c) :
    ∀ (n i : ℕ), ((List.range n).flatMap f)[i]? =
      if i < n * c then (f (i / c))[i % c]? else none := by
  intro n
  induction n with
  | zero => intro i; simp
  | succ n ih =>
    intro i
    have hsucc : (n + 1) * c = n * c + c := Nat.succ_mul n c
    rw [List.range_succ, List.flatMap_append]
    simp only [List.flatMap_cons, List.flatMap_nil, List.append_nil]
    rw [List.getElem?_append, length_range_bind f c hc n]
    by_cases hi : i < n * c
    · rw [if_pos hi, ih i, if_pos hi, if_pos (by omega)]
    · rw [if_neg hi]
      by_cases hi2 : i < (n + 1) * c
      · have hdiv : i / c = n := Nat.div_eq_of_lt_le (le_of_not_lt hi) hi2
        have hmod : i % c = i - n * c := by
          have h := Nat.mod_add_div i c
          rw [hdiv, Nat.mul_comm c n] at h
          omega
        rw [if_pos hi2, hdiv, hmod]
      · rw [if_neg hi2]
        apply List.getElem?_eq_none
        rw [hc n]
        omega

/-- Length of one epoch of the event trace. -/
lemma epochEvents_length (T V : ℕ) :
    (epochEvents T V).length = 5 * T + 2 * V := by
  rw [epochEvents, List.length_append,
    length_range_bind trainBatchEvents 5 (fun _ => rfl),
    length_range_bind evalBatchEvents 2 (fun _ => rfl)]
  ring

/-- Indexing into the full loop trace reduces to indexing into the epoch
trace, modulo the epoch length. -/
lemma trainingLoopEvents_getElem? (E T V : ℕ) (e k : ℕ) (he : e < E)
    (hk : k < 5 * T + 2 * V) :
    (trainingLoopEvents E T V)[e * (5 * T + 2 * V) + k]? =
      (epochEvents T V)[k]? := by
  have hL : ∀ b : ℕ, ((fun _ : ℕ => epochEvents T V) b).length = 5 * T + 2 * V :=
    fun _ => epochEvents_length T V
  rw [trainingLoopEvents,
    getElem?_range_bind (fun _ => epochEvents T V) (5 * T + 2 * V) hL E _]
  have hlt : e * (5 * T + 2 * V) + k < E * (5 * T + 2 * V) := by
    have : (e + 1) * (5 * T + 2 * V) ≤ E * (5 * T + 2 * V) :=
      Nat.mul_le_mul_right _ he
    nlinarith
  rw [if_pos hlt]
  have hmod : (e * (5 * T + 2 * V) + k) % (5 * T + 2 * V) = k := by
    rw [Nat.add_comm, Nat.mul_comm, Nat.add_mul_mod_self_left]
    exact Nat.mod_eq_of_lt hk
  rw [hmod]

/-- Position of a training-batch operation inside one epoch: training batch
`b` occupies positions `5 * b` to `5 * b + 4`, before all evaluation
positions. -/
lemma epochEvents_train_getElem? (T V b r : ℕ) (hb : b < T) (hr : r < 5) :
    (epochEvents T V)[5 * b + r]? = (trainBatchEvents b)[r]? := by
  rw [epochEvents, List.getElem?_append,
    length_range_bind trainBatchEvents 5 (fun _ => rfl) T]
  have h1 : 5 * b + r < T * 5 := by omega
  rw [if_pos h1, getElem?_range_bind trainBatchEvents 5 (fun _ => rfl) T _,
    if_pos h1]
  have hdiv : (5 * b + r) / 5 = b := by omega
  have hmod : (5 * b + r) % 5 = r := by omega
  rw [hdiv, hmod]

/-- Position of an evaluation-batch operation inside one epoch: evaluation
batch `v` occupies positions `5 * T + 2 * v` and `5 * T + 2 * v + 1`, after
all training positions. -/
lemma epochEvents_eval_getElem? (T V v s : ℕ) (hv : v < V) (hs : s < 2) :
    (epochEvents T V)[5 * T + (2 * v + s)]? = (evalBatchEvents v)[s]? := by
  rw [epochEvents, List.getElem?_append,
    length_range_bind trainBatchEvents 5 (fun _ => rfl) T]
  have h1 : ¬ (5 * T + (2 * v + s) < T * 5) := by omega
  rw [if_neg h1]
  have h2 : 5 * T + (2 * v + s) - T * 5 = 2 * v + s := by omega
  rw [h2, getElem?_range_bind evalBatchEvents 2 (fun _ => rfl) V _,
    if_pos (by omega : 2 * v + s < V * 2)]
  have hdiv : (2 * v + s) / 2 = v := by omega
  have hmod : (2 * v + s) % 2 = s := by omega
  rw [hdiv, hmod]

/-- The fold of the validation loop threads the training state through
unchanged. -/
lemma evalLoop_foldl_state {β : Type} (lossFn accFn : List ℚ → β → ℚ) :
    ∀ (bs : List β) (s : SGDState) (tl ac : ℚ),
      (bs.foldl (fun acc b =>
        (acc.1, acc.2.1 + lossFn acc.1.params b,
          acc.2.2 + accFn acc.1.params b)) (s, tl, ac)).1 = s := by
  intro bs
  induction bs with
  | nil => intro s tl ac; rfl
  | cons b bs ih => intro s tl ac; exact ih s _ _

/-- The accumulators of the validation loop depend on the state only
through the parameters. -/
lemma evalLoop_foldl_congr {β : Type} (lossFn accFn : List ℚ → β → ℚ) :
    ∀ (bs : List β) (s1 s2 : SGDState) (tl ac : ℚ), s1.params = s2.params →
      (bs.foldl (fun acc b =>
        (acc.1, acc.2.1 + lossFn acc.1.params b,
          acc.2.2 + accFn acc.1.params b)) (s1, tl, ac)).2 =
      (bs.foldl (fun acc b =>
        (acc.1, acc.2.1 + lossFn acc.1.params b,
          acc.2.2 + accFn acc.1.params b)) (s2, tl, ac)).2 := by
  intro bs
  induction bs with
  | nil => intro s1 s2 tl ac _; rfl
  | cons b bs ih =>
    intro s1 s2 tl ac h
    simp only [List.foldl_cons]
    rw [h]
    exact ih s1 s2 _ _ h

/-- A sum of 0/1 indicator values counts the satisfying elements. -/
lemma sum_indicator_eq_countP {α : Type} (p : α → Bool) (l : List α) :
    (l.map (fun a => if p a then (1 : ℚ) else 0)).sum = l.countP p := by
  induction l with
  | nil => simp
  | cons a l ih =>
    simp only [List.map_cons, List.sum_cons, List.countP_cons, ih]
    by_cases h : p a <;> simp [h] <;> push_cast <;> ring

/-- `zipWith` as a map over the zipped list. -/
lemma zipWith_as_map_zip {α β γ : Type} (f : α → β → γ) :
    ∀ (l1 : List α) (l2 : List β),
      List.zipWith f l1 l2 = (l1.zip l2).map (fun ab => f ab.1 ab.2) := by
  intro l1
  induction l1 with
  | nil => intro l2; rfl
  | cons a l1 ih =>
    intro l2
    cases l2 with
    | nil => rfl
    | cons b l2 => simp [ih]

/-- The batch accuracy of the source is the fraction of rows whose arg-max
predicted class equals the true label. -/
lemma batchAccuracy_eq_fraction (probs : List (List ℚ)) (labels : List ℕ)
    (h : probs.length = labels.length) :
    batchAccuracy probs labels =
      (((probs.zip labels).countP (fun rl => argmaxIdx rl.1 == rl.2) : ℕ) : ℚ)
        / (probs.length : ℚ) := by
  rw [batchAccuracy, meanQ, equalityList, zipWith_as_map_zip, List.map_map]
  simp only [Function.comp_def]
  rw [sum_indicator_eq_countP (fun rl => argmaxIdx rl.1 == rl.2) (probs.zip labels)]
  congr 1
  rw [List.length_map, List.length_zip, h, min_self]

/-- Output length of a linear layer in the list model. -/
lemma linearQ_length (W : List (List ℚ)) (b : List ℚ) (x : List ℚ) :
    (linearQ W b x).length = min W.length b.length := by
  simp [linearQ]

/-- Well-formed parameters produce exactly 10 class scores per row. -/
lemma scoresRowQ_length (p : ParamsL) (hWF : p.WF) (x : List ℚ) :
    (scoresRowQ p x).length = 10 := by
  rw [scoresRowQ, linearQ_length, hWF.hw4, hWF.hb4]
  simp

/-- `view` produces exactly `batch` rows. -/
lemma rowsOf_length (batch per : ℕ) (data : List ℚ) :
    (rowsOf batch per data).length = batch := by
  simp [rowsOf]

/-- The zero parameters have the dimensions declared by the four
`nn.Linear` layers. -/
lemma zeroParamsL_WF : zeroParamsL.WF := by
  refine ⟨List.length_replicate 256 _, ?_, List.length_replicate 256 _,
    List.length_replicate 128 _, ?_, List.length_replicate 128 _,
    List.length_replicate 64 _, ?_, List.length_replicate 64 _,
    List.length_replicate 10 _, ?_, List.length_replicate 10 _⟩ <;>
    (intro r hr
     rw [List.eq_of_mem_replicate hr]
     exact List.length_replicate _ _)

/-- Length of the flattening of a map with constant row length. -/
lemma flatten_length_const {α : Type} (f : α → List ℚ) (c : ℕ)
    (hf : ∀ a, (f a).length = c) :
    ∀ l : List α, ((l.map f).flatten).length = l.length * c := by
  intro l
  induction l with
  | nil => simp
  | cons a l ih =>
    simp only [List.map_cons, List.flatten_cons, List.length_append, ih,
      List.length_cons, hf a]
    ring

end HelperLemmas

section ClaimTheorems

/-- C1: In the training loop `for e in range(epochs)` (with `T` training
batches and `V` evaluation batches per epoch), the trace has exactly
`E * (5*T + 2*V)` events, i.e. the loop terminates exactly when the fixed
epoch count `E` is reached; within each epoch, training batch `b` occupies
the five consecutive positions starting at `e*(5*T+2*V) + 5*b` in the fixed
order zero-gradients, forward, loss, backward, parameter update; the
evaluation events of the epoch occupy the positions from `5*T` on in the
epoch block, hence only after all training batches; and because
`optimizer.zero_grad()` precedes `loss.backward()`, the parameters produced
by a training step are independent of whatever the gradient buffers held
when the batch started. -/
theorem training_loop_order_c1 (E T V : ℕ) :
    (trainingLoopEvents E T V).length = E * (5 * T + 2 * V)
    ∧ (∀ e b, e < E → b < T →
        (trainingLoopEvents E T V)[e * (5 * T + 2 * V) + 5 * b]? =
          some (.zeroGrad b)
        ∧ (trainingLoopEvents E T V)[e * (5 * T + 2 * V) + (5 * b + 1)]? =
          some (.forwardEv b)
        ∧ (trainingLoopEvents E T V)[e * (5 * T + 2 * V) + (5 * b + 2)]? =
          some (.lossEv b)
        ∧ (trainingLoopEvents E T V)[e * (5 * T + 2 * V) + (5 * b + 3)]? =
          some (.backwardEv b)
        ∧ (trainingLoopEvents E T V)[e * (5 * T + 2 * V) + (5 * b + 4)]? =
          some (.stepEv b))
    ∧ (∀ e v, e < E → v < V →
        (trainingLoopEvents E T V)[e * (5 * T + 2 * V) + (5 * T + 2 * v)]? =
          some (.evalForwardEv v)
        ∧ (trainingLoopEvents E T V)[e * (5 * T + 2 * V) + (5 * T + (2 * v + 1))]? =
          some (.evalAccumEv v))
    ∧ (∀ (lr : ℚ) (gradFn : List ℚ → List ℚ) (params g1 g2 : List ℚ),
        g1.length = g2.length →
        (trainBatchStep lr gradFn ⟨params, g1⟩).params =
          (trainBatchStep lr gradFn ⟨params, g2⟩).params) := by
  refine ⟨?_, ?_, ?_, ?_⟩
  · rw [trainingLoopEvents,
      length_range_bind (fun _ => epochEvents T V) (5 * T + 2 * V)
        (fun _ => epochEvents_length T V) E]
  · intro e b he hb
    have h0 := epochEvents_train_getElem? T V b 0 hb (by omega)
    rw [Nat.add_zero] at h0
    refine ⟨?_, ?_, ?_, ?_, ?_⟩
    · rw [trainingLoopEvents_getElem? E T V e (5 * b) he (by omega), h0]
      rfl
    · rw [trainingLoopEvents_getElem? E T V e (5 * b + 1) he (by omega),
        epochEvents_train_getElem? T V b 1 hb (by omega)]
      rfl
    · rw [trainingLoopEvents_getElem? E T V e (5 * b + 2) he (by omega),
        epochEvents_train_getElem? T V b 2 hb (by omega)]
      rfl
    · rw [trainingLoopEvents_getElem? E T V e (5 * b + 3) he (by omega),
        epochEvents_train_getElem? T V b 3 hb (by omega)]
      rfl
    · rw [trainingLoopEvents_getElem? E T V e (5 * b + 4) he (by omega),
        epochEvents_train_getElem? T V b 4 hb (by omega)]
      rfl
  · intro e v he hv
    have h0 := epochEvents_eval_getElem? T V v 0 hv (by omega)
    rw [Nat.add_zero] at h0
    constructor
    · rw [trainingLoopEvents_getElem? E T V e (5 * T + 2 * v) he (by omega), h0]
      rfl
    · rw [trainingLoopEvents_getElem? E T V e (5 * T + (2 * v + 1)) he (by omega),
        epochEvents_eval_getElem? T V v 1 hv (by omega)]
      rfl
  · intro lr gradFn params g1 g2 h
    have hzero : g1.map (fun _ => (0 : ℚ)) = g2.map (fun _ => 0) := by
      rw [map_zero_eq_replicate, map_zero_eq_replicate, h]
    simp [trainBatchStep, zeroGradOp, backwardOp, sgdStepOp, hzero]

/-- Witness for C1, instantiated at one epoch with one training batch and
one evaluation batch. -/
theorem training_loop_order_c1_witness :
    (trainingLoopEvents 1 1 1)[3]? = some (.backwardEv 0)
    ∧ (trainingLoopEvents 1 1 1)[5]? = some (.evalForwardEv 0)
    ∧ (trainBatchStep 1 (fun ps => ps) ⟨[2], [7]⟩).params =
        (trainBatchStep 1 (fun ps => ps) ⟨[2], [9]⟩).params := by
  have h := training_loop_order_c1 1 1 1
  refine ⟨?_, ?_, ?_⟩
  · have hb := (h.2.1 0 0 (by omega) (by omega)).2.2.2.1
    simpa using hb
  · have hv := (h.2.2.1 0 0 (by omega) (by omega)).1
    simpa using hv
  · exact h.2.2.2 1 (fun ps => ps) [2] [7] [9] rfl

/-- C2 counterexample: `Classifier.forward` ends with
`F.log_softmax(self.fc4(x), dim=1)`, so its returned values are not the raw
unnormalized scores: with zero-initialized parameters and the zero input the
raw score of class 0 is 0, but the value returned by `forward` at class 0 is
`-log 10 ≠ 0` — a normalization has been applied internally. -/
theorem forward_not_raw_scores_c2 :
    Classifier.forward zeroClassifierParams (fun _ => 0) 0 ≠
      Classifier.scores zeroClassifierParams (fun _ => 0) 0 := by
  have hL : Classifier.forward zeroClassifierParams (fun _ => 0) (0 : Fin 10) =
      -Real.log 10 := by
    rw [Classifier.forward, scores_zero, logSoftmax_const]
    norm_num
  have hR : Classifier.scores zeroClassifierParams (fun _ => 0) (0 : Fin 10) =
      0 := by
    rw [scores_zero]
  rw [hL, hR]
  have hpos : 0 < Real.log 10 := Real.log_pos (by norm_num)
  intro hEq
  exact absurd (neg_eq_zero.mp hEq) (ne_of_gt hpos)

/-- C2 (amended): the predictor applies a sequence of affine transforms with
the ReLU activation after each hidden layer and no ReLU after the final
layer `fc4`, producing one score per class (10 scores); `forward` then
applies log-softmax to those scores, so the values it returns are normalized
log-probabilities — their exponentials sum to 1 — and the raw unnormalized
logits are the pre-log-softmax scores. -/
theorem forward_is_logsoftmax_of_scores_c2 (p : ClassifierParams)
    (x : Fin 784 → ℝ) :
    Classifier.forward p x = logSoftmax (Classifier.scores p x)
    ∧ (∑ i, Real.exp (Classifier.forward p x i)) = 1 :=
  ⟨rfl, sum_exp_logSoftmax _⟩

/-- C3 counterexample: the part_000 training loops construct
`optim.Adam(model.parameters(), lr=0.003)`, and the first Adam update is not
the plain gradient-descent rule: at parameter 0 with gradient 2, Adam with
the source learning rate moves the parameter to `-lr * 2/(2 + 1e-8)`, while
plain gradient descent moves it to `-lr * 2`. -/
theorem adam_not_plain_sgd_c3 :
    adamFirstStep (3 / 1000) (1 / 100000000) 0 2 ≠ sgdStep (3 / 1000) 0 2 := by
  norm_num [adamFirstStep, sgdStep]

/-- C3 (amended): in the Part 3 notebook the optimizer is
`optim.SGD(model.parameters(), lr=0.003)` without momentum, and its step is
the plain rule `p ← p - lr * g` applied uniformly to every parameter entry;
in the training-batch step the update consumes exactly the gradient the
backward pass accumulated for the full batch into the freshly zeroed
buffers.  The part_000 loops use `optim.Adam` instead, whose update differs
from this rule. -/
theorem sgd_update_rule_c3 :
    (∀ (lr : ℚ) (ps gs : List ℚ) (i : ℕ) (p g : ℚ),
      ps[i]? = some p → gs[i]? = some g →
      (sgdStepAll lr ps gs)[i]? = some (p - lr * g))
    ∧ (∀ (lr : ℚ) (gradFn : List ℚ → List ℚ) (params grads : List ℚ),
      grads.length = (gradFn params).length →
      (trainBatchStep lr gradFn ⟨params, grads⟩).params =
        sgdStepAll lr params (gradFn params)) := by
  constructor
  · intro lr ps gs i p g h1 h2
    exact getElem?_zipWith_of _ ps gs i p g h1 h2
  · intro lr gradFn params grads h
    simp only [trainBatchStep, zeroGradOp, backwardOp, sgdStepOp, sgdStepAll]
    rw [map_zero_eq_replicate, h, zipWith_add_replicate_zero]

/-- Witness for the amended C3, instantiated at concrete parameter and
gradient lists. -/
theorem sgd_update_rule_c3_witness :
    (sgdStepAll (1 / 2) [1, 2] [4, 6])[0]? = some (1 - (1 / 2) * 4)
    ∧ (trainBatchStep (1 / 2) (fun ps => ps) ⟨[1, 2], [5, 5]⟩).params =
        sgdStepAll (1 / 2) [1, 2] ((fun ps => ps) [1, 2]) := by
  constructor
  · exact (sgd_update_rule_c3).1 (1 / 2) [1, 2] [4, 6] 0 1 4 rfl rfl
  · exact (sgd_update_rule_c3).2 (1 / 2) (fun ps => ps) [1, 2] [5, 5] rfl

/-- C4: for the fixed drop probability `p = 0.2` of `nn.Dropout(p=0.2)`:
the expected value of a training-mode dropout output equals its input (the
activation is zeroed with probability p and otherwise rescaled by 1/(1-p));
in evaluation mode the dropout layer is the identity on every activation
vector; and in evaluation mode the dropout classifier computes exactly the
dropout-free forward pass.  Dropout is applied to the three hidden
activations only — the scores are `fc4` of the last hidden activation with
no dropout module after it. -/
theorem dropout_semantics_c4 :
    (∀ x : ℝ, (∑ b : Bool, bernProb dropP b * dropoutElem .train dropP b x) = x)
    ∧ (∀ (n : ℕ) (mask : Fin n → Bool) (x : Fin n → ℝ),
        dropoutVec .eval dropP mask x = x)
    ∧ (∀ (p : ClassifierParams) (mk : DropoutMasks) (x : Fin 784 → ℝ),
        Classifier.forwardDropout .eval p mk x = Classifier.forward p x) := by
  refine ⟨?_, ?_, ?_⟩
  · intro x
    rw [Fintype.sum_bool]
    simp only [bernProb, dropoutElem, dropP, if_true, if_false]
    norm_num
    ring
  · intro n mask x
    exact dropoutVec_eval dropP mask x
  · intro p mk x
    exact forwardDropout_eval p mk x

/-- C5: for every row of scores, the exponentials of the log-softmax values
sum to exactly 1 over the reals, and the stable computation (subtracting the
row maximum before exponentiating) equals the log-sum-exp normalization
`v i - log (∑ j, exp (v j))`. -/
theorem logsoftmax_rows_normalized_c5 (n : ℕ) (v : Fin (n + 1) → ℝ) :
    (∑ i, Real.exp (logSoftmax v i)) = 1
    ∧ ∀ i, logSoftmax v i = v i - Real.log (∑ j, Real.exp (v j)) :=
  ⟨sum_exp_logSoftmax v, fun i => logSoftmax_eq_unshifted v i⟩

/-- C6: if all scores in a row are equal, the log-softmax log-probabilities
are uniform (each equals `-log numClasses`) and the NLL loss is
`log numClasses` — a real number, hence finite — for every valid label; in
particular a two-layer network with zero-initialized weights and zero biases
(e.g. on an input vector of 4 zeros) produces all-zero logits and the
uniform loss `log numClasses`. -/
theorem uniform_scores_finite_loss_c6 :
    (∀ (n : ℕ) (v : Fin (n + 1) → ℝ), (∀ i j, v i = v j) →
      (∀ i, logSoftmax v i = -Real.log (n + 1))
      ∧ ∀ l, nllLossRow (logSoftmax v) l = Real.log (n + 1))
    ∧ (∀ (d h k : ℕ) (x : Fin d → ℝ),
        twoLayer (fun (_ : Fin h) (_ : Fin d) => (0 : ℝ)) (fun _ => 0)
          (fun (_ : Fin (k + 1)) (_ : Fin h) => (0 : ℝ)) (fun _ => 0) x
          = (fun _ => 0)
        ∧ ∀ l : Fin (k + 1),
          nllLossRow (logSoftmax (twoLayer
            (fun (_ : Fin h) (_ : Fin d) => (0 : ℝ)) (fun _ => 0)
            (fun (_ : Fin (k + 1)) (_ : Fin h) => (0 : ℝ)) (fun _ => 0) x)) l
            = Real.log (k + 1)) := by
  constructor
  · intro n v hv
    have hconst : v = fun _ => v 0 := funext (fun i => hv i 0)
    constructor
    · intro i
      rw [hconst, logSoftmax_const]
    · intro l
      rw [hconst, nllLossRow, logSoftmax_const, neg_neg]
  · intro d h k x
    constructor
    · exact twoLayer_zero x
    · intro l
      rw [twoLayer_zero x, nllLossRow, logSoftmax_const, neg_neg]

/-- Witness for C6 at a concrete all-equal row with 10 classes. -/
theorem uniform_scores_finite_loss_c6_witness :
    logSoftmax (fun _ : Fin (9 + 1) => (0 : ℝ)) 0 = -Real.log ((9 : ℕ) + 1)
    ∧ nllLossRow (logSoftmax (fun _ : Fin (9 + 1) => (0 : ℝ))) 0 =
        Real.log ((9 : ℕ) + 1) := by
  have h := (uniform_scores_finite_loss_c6).1 9 (fun _ => (0 : ℝ))
    (fun i j => rfl)
  exact ⟨h.1 0, h.2 0⟩

/-- C7: the validation pass leaves the training state untouched: the state
coming out of the evaluation loop has exactly the parameters and exactly the
gradient buffers it started with — no parameter tensor is mutated and no
gradient buffer is written during evaluation. -/
theorem eval_pass_frame_c7 {β : Type} (lossFn accFn : List ℚ → β → ℚ)
    (s : SGDState) (bs : List β) :
    (evalLoop lossFn accFn s bs).1.params = s.params
    ∧ (evalLoop lossFn accFn s bs).1.grads = s.grads := by
  have h := evalLoop_foldl_state lossFn accFn bs s 0 0
  rw [evalLoop, h]
  exact ⟨rfl, rfl⟩

/-- C8: evaluation is deterministic: in evaluation mode the dropout
classifier output does not depend on the Bernoulli masks (dropout consumes
no randomness when off), so identical parameters and input give identical
output; and the loss/accuracy accumulators of the validation loop depend on
the state only through the parameters, so two runs over the same parameters
and the same batches report identical accuracy. -/
theorem eval_deterministic_c8 :
    (∀ (p : ClassifierParams) (mk1 mk2 : DropoutMasks) (x : Fin 784 → ℝ),
      Classifier.forwardDropout .eval p mk1 x =
        Classifier.forwardDropout .eval p mk2 x)
    ∧ (∀ (β : Type) (lossFn accFn : List ℚ → β → ℚ) (s1 s2 : SGDState)
        (bs : List β), s1.params = s2.params →
        (evalLoop lossFn accFn s1 bs).2 = (evalLoop lossFn accFn s2 bs).2) := by
  constructor
  · intro p mk1 mk2 x
    rw [forwardDropout_eval, forwardDropout_eval]
  · intro β lossFn accFn s1 s2 bs h
    rw [evalLoop, evalLoop]
    exact evalLoop_foldl_congr lossFn accFn bs s1 s2 0 0 h

/-- Witness for C8 at two concrete states agreeing on parameters. -/
theorem eval_deterministic_c8_witness :
    (evalLoop (fun _ _ => (1 : ℚ)) (fun _ _ => (1 : ℚ))
      ⟨[3], [7]⟩ [Unit.unit]).2 =
    (evalLoop (fun _ _ => (1 : ℚ)) (fun _ _ => (1 : ℚ))
      ⟨[3], [8]⟩ [Unit.unit]).2 :=
  (eval_deterministic_c8).2 Unit (fun _ _ => 1) (fun _ _ => 1)
    ⟨[3], [7]⟩ ⟨[3], [8]⟩ [Unit.unit] rfl

/-- C9: the per-batch accuracy computed by the source (`topk(1)` arg-max,
equality with the reshaped labels, `torch.mean` of the 0/1 tensor) equals
the fraction of batch rows whose arg-max predicted class equals the true
label, and the reported accuracy is the sum of the per-batch accuracies
divided by the number of evaluation batches — their average. -/
theorem accuracy_fraction_c9 (batches : List (List (List ℚ) × List ℕ))
    (h : ∀ b ∈ batches, b.1.length = b.2.length) :
    (∀ b ∈ batches, batchAccuracy b.1 b.2 =
      (((b.1.zip b.2).countP (fun rl => argmaxIdx rl.1 == rl.2) : ℕ) : ℚ)
        / (b.1.length : ℚ))
    ∧ reportedAccuracy batches =
      ((batches.map (fun b => batchAccuracy b.1 b.2)).sum) /
        (batches.length : ℚ) := by
  constructor
  · intro b hb
    exact batchAccuracy_eq_fraction b.1 b.2 (h b hb)
  · rfl

/-- Witness for C9 at a concrete single-batch run with one correct and one
wrong prediction. -/
theorem accuracy_fraction_c9_witness :
    batchAccuracy [[1, 2], [3, 0]] [1, 1] = (1 : ℚ) / 2 := by
  have h := accuracy_fraction_c9 [([[1, 2], [3, 0]], [1, 1])]
    (by intro b hb; simp at hb; subst hb; rfl)
  have h2 := h.1 ([[1, 2], [3, 0]], [1, 1]) (by simp)
  rw [h2]
  have hc : (([[1, 2], [3, 0]] : List (List ℚ)).zip [1, 1]).countP
      (fun rl => argmaxIdx rl.1 == rl.2) = 1 := by decide
  show ((((([[1, 2], [3, 0]] : List (List ℚ)).zip [1, 1]).countP
      (fun rl => argmaxIdx rl.1 == rl.2) : ℕ) : ℚ)) /
      (([[1, 2], [3, 0]] : List (List ℚ)).length : ℚ) = 1 / 2
  rw [hc]
  norm_num

/-- C10: the tensor-level forward pass flattens its input with
`x.view(x.shape[0], -1)`; for every input tensor whose per-example element
count is exactly 784 — whatever its rank or shape beyond the batch
dimension — the pass succeeds and returns a tensor of shape (batch, 10) with
`batch * 10` entries, and for every per-example element count other than 784
the first linear layer rejects the input with the matmul dimension-mismatch
error. -/
theorem forward_shape_c10 (p : ParamsL) (t : PTensor) (batch : ℕ)
    (rest : List ℕ) (hWF : p.WF) (hshape : t.shape = batch :: rest)
    (hdata : t.data.length = t.shape.prod) :
    (rest.prod = 784 →
      ∃ out : PTensor, forwardT p t = .ok out ∧ out.shape = [batch, 10]
        ∧ out.data.length = batch * 10)
    ∧ (rest.prod ≠ 784 →
        forwardT p t = .error "mat1 and mat2 shapes cannot be multiplied") := by
  obtain ⟨shape, data⟩ := t
  simp only at hshape
  subst hshape
  constructor
  · intro hper
    refine ⟨⟨[batch, 10],
      ((rowsOf batch 784 data).map (scoresRowQ p)).flatten⟩, ?_, rfl, ?_⟩
    · simp only [forwardT]
      rw [if_pos hper]
    · simp only
      rw [flatten_length_const (scoresRowQ p) 10 (scoresRowQ_length p hWF),
        rowsOf_length]
  · intro hper
    simp only [forwardT]
    rw [if_neg hper]

/-- Witness for C10 at a rank-3 zero tensor of shape (2, 28, 28), whose
per-example element count is 28 * 28 = 784, with zero parameters. -/
theorem forward_shape_c10_witness :
    ∃ out : PTensor,
      forwardT zeroParamsL ⟨[2, 28, 28], List.replicate 1568 0⟩ = .ok out
      ∧ out.shape = [2, 10] ∧ out.data.length = 2 * 10 := by
  have h := forward_shape_c10 zeroParamsL
    ⟨[2, 28, 28], List.replicate 1568 0⟩ 2 [28, 28] zeroParamsL_WF rfl
    (by show (List.replicate 1568 (0 : ℚ)).length = ([2, 28, 28] : List ℕ).prod
        rw [List.length_replicate]
        rfl)
  exact h.1 (by norm_num)

end ClaimTheorems

